import Mathlib

/-!
# Verification of the matverse evidence-and-governance core

A shallow embedding, in Lean 4, of the core components of the
`matverse-acoa/papers` repository:

* `core/governance/omega_gate.py` — the Ω-GATE decision function (`OmegaGate`);
* `core/identity/ohash.py` — the OHASH identity hash chain (`OHashEngine`);
* `core/ledger/merkle_ledger.py` — the Merkle evidence ledger
  (`ScientificMerkleLedger`, backed by the `merkletools` tree);
* `tools/exocortex_executor/omega_gate.py` and
  `tools/exocortex_executor/deploy_with_tests_and_tracing.py` — the two remote
  governance-check clients;
* `tools/exocortex_executor/executor_v2.py` — the fail-closed pipeline
  orchestrator (`SovereignExecutor.run`).

Python `float` values are embedded as exact rationals (`ℚ`); the single
transcendental operation (`np.exp` inside `OmegaGate.calculate_theta`) is
embedded as an explicit function parameter `expApprox`, since only the result
of the comparison against the SLA threshold — never the numeric value of the
exponential — enters the control flow under verification.  SHA-3 digests are
embedded as abstract digest-producing function parameters over `String`:
none of the verified properties depend on properties of the concrete hash,
only on recomputing the same function on the same input.  Time stamps,
which the Python code draws from `time.time()`, are passed in explicitly.
-/

namespace Governance

/-- Decision outcomes of the Ω-GATE (`Decision` enum in
`core/governance/omega_gate.py`). -/
inductive Decision where
  | APPROVE
  | REJECT
  | REVIEW
  deriving DecidableEq, Repr

/-- Metrics vector for Ω-GATE decision making (`GovernanceMetrics` dataclass).
`psi` is the stored coherence index, `theta` the raw performance score,
`cvar` the tail risk, `alpha` the antifragility index, and
`completeness`/`consistency`/`traceability` the raw sub-components from which
`calculate_psi` derives the coherence actually used by `decide`. -/
structure GovernanceMetrics where
  psi : ℚ
  theta : ℚ
  cvar : ℚ
  alpha : ℚ
  completeness : ℚ
  consistency : ℚ
  traceability : ℚ
  deriving DecidableEq, Repr

/-- Threshold configuration of `OmegaGate.__init__` (defaults
`psi_min=0.55`, `theta_sla=0.8`, `cvar_max=0.4`, `alpha_min=1.0`). -/
structure OmegaGate where
  psi_min : ℚ := 0.55
  theta_sla : ℚ := 0.8
  cvar_max : ℚ := 0.4
  alpha_min : ℚ := 1.0
  deriving DecidableEq, Repr

/-- Model of `np.clip(x, lo, hi) = min(hi, max(x, lo))`. -/
def clip (x lo hi : ℚ) : ℚ := min hi (max x lo)

/-- Model of `OmegaGate.calculate_psi`: Ψ = 0.4·completeness + 0.3·consistency +
0.3·traceability, clipped to [0, 1].  (The method ignores `self`'s
thresholds, so it is embedded without the gate argument.) -/
def calculate_psi (m : GovernanceMetrics) : ℚ :=
  clip (0.4 * m.completeness + 0.3 * m.consistency + 0.3 * m.traceability) 0 1

/-- Model of `OmegaGate.calculate_theta`: Θ̄ = clip(exp(-θ / 0.5), 0, 1).
`expApprox` stands for `np.exp`; it is a parameter because the exponential is
transcendental and only its comparison with the SLA threshold matters. -/
def calculate_theta (expApprox : ℚ → ℚ) (m : GovernanceMetrics) : ℚ :=
  clip (expApprox (-m.theta / 0.5)) 0 1

/-- Model of `OmegaGate.decide`: APPROVE iff the derived Ψ, derived Θ̄, raw `cvar` and
raw `alpha` all pass their (closed) threshold comparisons; otherwise REJECT
iff Ψ < 0.8·psi_min; otherwise REVIEW.  (The Python locals
`psi = self.calculate_psi(metrics)` and `theta = self.calculate_theta(metrics)`
are inlined; both are pure.) -/
def OmegaGate.decide (g : OmegaGate) (expApprox : ℚ → ℚ)
    (m : GovernanceMetrics) : Decision :=
  if calculate_psi m ≥ g.psi_min ∧ calculate_theta expApprox m ≤ g.theta_sla ∧
      m.cvar ≤ g.cvar_max ∧ m.alpha ≥ g.alpha_min then
    Decision.APPROVE
  else if calculate_psi m < g.psi_min * 0.8 then
    Decision.REJECT
  else
    Decision.REVIEW

end Governance

namespace OHash

/-- The metadata dictionary attached by `OHashEngine.create_author_chain`
(`artifact_index`, `artifact_type`, `total_artifacts`). -/
structure ChainMetadata where
  artifact_index : Nat
  artifact_type : String
  total_artifacts : Nat
  deriving DecidableEq, Repr

/-- Model of `OHashPayload` dataclass of `core/identity/ohash.py`.  Timestamps are
passed in explicitly (the Python code draws them from `time.time()`). -/
structure OHashPayload where
  orcid : String
  artifact_hash : String
  timestamp : Int
  metadata : ChainMetadata
  prev_ohash : String := ""
  author_signature : String := ""
  deriving DecidableEq, Repr

/-- The `full_payload` dictionary returned by `OHashEngine.generate_ohash`
and stored in an author chain: the OHASH, the payload it was computed from,
the algorithm name and the generation time. -/
structure ChainRecord where
  ohash : String
  payload : OHashPayload
  algorithm : String
  generated_at : Int
  deriving DecidableEq, Repr

/-- Model of `OHashEngine.generate_ohash`: hash the payload's canonical serialization
(`H` abstracts the selected digest algorithm applied to the canonical JSON
bytes) and wrap it in the full-payload record. -/
def generate_ohash (H : OHashPayload → String) (alg : String) (genAt : Int)
    (p : OHashPayload) : String × ChainRecord :=
  (H p, { ohash := H p, payload := p, algorithm := alg, generated_at := genAt })

/-- Loop body of `OHashEngine.create_author_chain`: artifact `i` is wrapped in
a payload carrying the running `prev_ohash`, hashed, appended, and its OHASH
becomes the next `prev_ohash`. -/
def create_author_chain_aux {α : Type} (H : OHashPayload → String)
    (alg orcid : String) (total : Nat) (artHash typeName : α → String)
    (times genAts : Nat → Int) : List α → Nat → String → List ChainRecord
  | [], _, _ => []
  | a :: rest, i, prev =>
    let payload : OHashPayload :=
      { orcid := orcid, artifact_hash := artHash a, timestamp := times i,
        metadata := { artifact_index := i, artifact_type := typeName a,
                      total_artifacts := total },
        prev_ohash := prev }
    (generate_ohash H alg (genAts i) payload).2 ::
      create_author_chain_aux H alg orcid total artHash typeName times genAts
        rest (i + 1) (generate_ohash H alg (genAts i) payload).1

/-- Model of `OHashEngine.create_author_chain`: chain over all artifacts, starting from
index 0 with an empty `prev_ohash`.  `artHash` abstracts `_hash_artifact` and
`typeName` the Python `type(artifact).__name__`. -/
def create_author_chain {α : Type} (H : OHashPayload → String)
    (alg orcid : String) (artifacts : List α) (artHash typeName : α → String)
    (times genAts : Nat → Int) : List ChainRecord :=
  create_author_chain_aux H alg orcid artifacts.length artHash typeName
    times genAts artifacts 0 ""

/-- The per-record hash re-check of `OHashEngine.verify_chain`: recompute the
OHASH from the stored payload and compare with the stored OHASH. -/
def checkRecord (H : OHashPayload → String) (c : ChainRecord) : Bool :=
  H c.payload == c.ohash

/-- The `i > 0` portion of the `OHashEngine.verify_chain` loop: each record
must re-hash correctly and its payload's `prev_ohash` must equal the previous
record's stored OHASH. -/
def verifyLinked (H : OHashPayload → String) :
    ChainRecord → List ChainRecord → Bool
  | _, [] => true
  | prev, c :: rest =>
    checkRecord H c && (c.payload.prev_ohash == prev.ohash) &&
      verifyLinked H c rest

/-- Model of `OHashEngine.verify_chain`: an empty chain is rejected (`if not chain:
return False`); otherwise every record must re-hash correctly and, from index
1 on, link to its predecessor's OHASH. -/
def verify_chain (H : OHashPayload → String) : List ChainRecord → Bool
  | [] => false
  | c :: rest => checkRecord H c && verifyLinked H c rest

/-- Index of the first record failing its `verify_chain` checks (hash
re-check, and linkage for records after the first), or `none` when every
check passes.  This names the point at which the `verify_chain` loop returns
`False`. -/
def firstFailAux (H : OHashPayload → String) :
    Option ChainRecord → Nat → List ChainRecord → Option Nat
  | _, _, [] => none
  | prev, i, c :: rest =>
    if checkRecord H c && (match prev with
        | none => true
        | some p => c.payload.prev_ohash == p.ohash) then
      firstFailAux H (some c) (i + 1) rest
    else some i

/-- Earliest failing index of the chain's per-record checks. -/
def firstFailIdx (H : OHashPayload → String) (chain : List ChainRecord) :
    Option Nat :=
  firstFailAux H none 0 chain

/-- A concrete payload encoding standing in for the SHA-3 digest of the
canonical JSON serialization, used to instantiate the abstract digest in
witnesses. -/
def demoPayloadHash (p : OHashPayload) : String :=
  "P(" ++ p.orcid ++ ";" ++ p.artifact_hash ++ ";" ++ toString p.timestamp ++
    ";" ++ toString p.metadata.artifact_index ++ ";" ++
    p.metadata.artifact_type ++ ";" ++ toString p.metadata.total_artifacts ++
    ";" ++ p.prev_ohash ++ ";" ++ p.author_signature ++ ")"

/-- Concrete two-artifact author chain used by witnesses. -/
def demoChain : List ChainRecord :=
  create_author_chain demoPayloadHash "sha3_256" "0009-0008-2973-4047"
    ["paperA", "paperB"] (fun a => a) (fun _ => "str")
    (fun i => (i : Int)) (fun i => (i : Int))

/-- The second record of `demoChain`. -/
def demoRecord1 : ChainRecord :=
  (demoChain[1]?).getD
    { ohash := "",
      payload := { orcid := "", artifact_hash := "", timestamp := 0,
                   metadata := { artifact_index := 0, artifact_type := "",
                                 total_artifacts := 0 } },
      algorithm := "", generated_at := 0 }

end OHash

namespace MerkleLedger

/-- Model of `LedgerEntry` dataclass of `core/ledger/merkle_ledger.py`.  `metadata` is
an ordered key→value mapping; `compute_hash` (SHA-3 of the canonical JSON) is
abstracted by the `entryHash` function parameter threaded through the ledger
operations below. -/
structure LedgerEntry where
  entry_id : String
  entry_type : String
  timestamp : Int
  author_orcid : String
  content_hash : String
  metadata : List (String × String)
  previous_hash : String := ""
  signature : String := ""
  deriving DecidableEq, Repr

/-- Default entry used where the Python code indexes a list under a proved
bounds guard. -/
def defaultEntry : LedgerEntry :=
  { entry_id := "", entry_type := "", timestamp := 0, author_orcid := "",
    content_hash := "", metadata := [] }

/-- One element of a `merkletools` proof: a sibling digest tagged with its
side (the `{"left": h}` / `{"right": h}` dictionaries). -/
inductive ProofElem where
  | left (sibling : String)
  | right (sibling : String)
  deriving DecidableEq, Repr

/-- One round of `MerkleTools._calculate_next_level`: adjacent pairs are
combined (`combine` abstracts hashing the concatenation); an odd last node is
carried up unchanged (the `solo_leave`). -/
def nextLevel (combine : String → String → String) :
    List String → List String
  | [] => []
  | [a] => [a]
  | a :: b :: rest => combine a b :: nextLevel combine rest

/-- The `while len(levels[0]) > 1` loop of `MerkleTools.make_tree`, driven by
an explicit fuel bound (structural recursion; `lvl.length` rounds always
suffice because `nextLevel` halves the level size, see `nextLevel_length`). -/
def rootLoop (combine : String → String → String) :
    Nat → List String → String
  | 0, lvl => lvl.headD ""
  | fuel + 1, lvl =>
    if lvl.length ≤ 1 then lvl.headD ""
    else rootLoop combine fuel (nextLevel combine lvl)

/-- Repeated `_calculate_next_level` until a single node remains: the value of
`MerkleTools.get_merkle_root` on a non-empty leaf list. -/
def rootAux (combine : String → String → String) (lvl : List String) :
    String :=
  rootLoop combine lvl.length lvl

/-- The level-walking loop of `MerkleTools.get_proof` with an explicit fuel
bound: at each level below the root the sibling of the tracked index is
emitted (skipping the odd level-end node, which has no sibling), and the
index is halved. -/
def proofLoop (combine : String → String → String) :
    Nat → List String → Nat → List ProofElem
  | 0, _, _ => []
  | fuel + 1, lvl, i =>
    if lvl.length ≤ 1 then []
    else
      (if i == lvl.length - 1 && lvl.length % 2 == 1 then []
       else if i % 2 == 1 then [ProofElem.left (lvl.getD (i - 1) "")]
       else [ProofElem.right (lvl.getD (i + 1) "")]) ++
        proofLoop combine fuel (nextLevel combine lvl) (i / 2)

/-- Model of `MerkleTools.get_proof`, phrased as a recursion over levels from the
leaves upward. -/
def buildProof (combine : String → String → String) (lvl : List String)
    (i : Nat) : List ProofElem :=
  proofLoop combine lvl.length lvl i

/-- Model of `MerkleTools.validate_proof`: fold the sibling path onto the target hash
(left sibling prepends, right sibling appends before combining) and compare
with the expected root.  (The Python `len(proof) == 0` early return equals
the fold over an empty list.) -/
def validate_proof (combine : String → String → String)
    (proof : List ProofElem) (target_hash merkle_root : String) : Bool :=
  proof.foldl
    (fun h p =>
      match p with
      | ProofElem.left s => combine s h
      | ProofElem.right s => combine h s)
    target_hash == merkle_root

/-- Model of `ScientificMerkleLedger`: the entry list.  The `merkle_tools` tree state
is rebuilt from `ledger` by `rebuild_tree` after every mutation, so it is
embedded as the derived `leaves` function rather than duplicated state. -/
structure ScientificMerkleLedger where
  ledger : List LedgerEntry := []
  deriving DecidableEq, Repr

/-- The leaf list `rebuild_tree` feeds to the tree: each entry's
`compute_hash`, in ledger order. -/
def leaves (entryHash : LedgerEntry → String)
    (L : ScientificMerkleLedger) : List String :=
  L.ledger.map entryHash

/-- Model of `ScientificMerkleLedger.add_entry`: when the ledger is non-empty the
incoming entry's `previous_hash` is overwritten with the last entry's digest
(when it is empty the entry is stored as supplied); the entry is appended and
the tree rebuilt.  Returns the new ledger and the `entry_id`. -/
def add_entry (entryHash : LedgerEntry → String)
    (L : ScientificMerkleLedger) (entry : LedgerEntry) :
    ScientificMerkleLedger × String :=
  match L.ledger.getLast? with
  | none => ({ ledger := L.ledger ++ [entry] }, entry.entry_id)
  | some last =>
    ({ ledger := L.ledger ++ [{ entry with previous_hash := entryHash last }] },
      entry.entry_id)

/-- Model of `ScientificMerkleLedger.get_merkle_root`: `none` on an empty ledger. -/
def get_merkle_root (entryHash : LedgerEntry → String)
    (combine : String → String → String) (L : ScientificMerkleLedger) :
    Option String :=
  if L.ledger.isEmpty then none
  else some (rootAux combine (leaves entryHash L))

/-- Model of `ScientificMerkleLedger.get_proof`: the proof path for an in-range index,
`None` (modelled as `none`) otherwise. -/
def get_proof (entryHash : LedgerEntry → String)
    (combine : String → String → String) (L : ScientificMerkleLedger)
    (entry_index : Nat) : Option (List ProofElem) :=
  if entry_index < L.ledger.length then
    some (buildProof combine (leaves entryHash L) entry_index)
  else none

/-- Model of `ScientificMerkleLedger.verify_entry`: out-of-range indices are rejected;
then the Python `if not proof: return False` rejects both a missing proof
(`None`) and the *empty* proof list (which `merkletools` legitimately returns
for a single-leaf tree); otherwise the proof is validated against the current
root. -/
def verify_entry (entryHash : LedgerEntry → String)
    (combine : String → String → String) (L : ScientificMerkleLedger)
    (entry_index : Nat) : Bool :=
  if entry_index < L.ledger.length then
    match get_proof entryHash combine L entry_index with
    | none => false
    | some [] => false
    | some proof =>
      validate_proof combine proof
        (entryHash (L.ledger.getD entry_index defaultEntry))
        ((get_merkle_root entryHash combine L).getD "")
  else false

/-- Model of `ScientificMerkleLedger.verify_chain`: vacuously true on an empty ledger;
otherwise every entry must pass `verify_entry` and, from index 1 on, its
`previous_hash` must equal the previous entry's recomputed digest. -/
def verify_chain (entryHash : LedgerEntry → String)
    (combine : String → String → String) (L : ScientificMerkleLedger) :
    Bool :=
  if L.ledger.isEmpty then true
  else
    (List.range L.ledger.length).all fun i =>
      verify_entry entryHash combine L i &&
        (i == 0 ||
          ((L.ledger.getD i defaultEntry).previous_hash ==
            entryHash (L.ledger.getD (i - 1) defaultEntry)))

/-- The receipt dictionary built by
`ScientificMerkleLedger.create_evidence_receipt`.  `receipt_id` and
`timestamp` depend on `time.time()` and are passed in by the caller of the
embedded operation. -/
structure EvidenceReceipt where
  receipt_id : String
  entry : LedgerEntry
  merkle_proof : Option (List ProofElem)
  merkle_root : Option String
  chain_index : Nat
  total_entries : Nat
  timestamp : Int
  entry_hash : String
  proof_valid : Bool
  chain_valid : Bool
  deriving DecidableEq, Repr

/-- Model of `ScientificMerkleLedger.create_evidence_receipt`: bundles entry, proof,
root, chain position and freshly computed verification flags for an in-range
index; returns the empty dictionary (modelled as `none`) otherwise. -/
def create_evidence_receipt (entryHash : LedgerEntry → String)
    (combine : String → String → String) (rid : String) (now : Int)
    (L : ScientificMerkleLedger) (entry_index : Nat) :
    Option EvidenceReceipt :=
  if entry_index < L.ledger.length then
    some
      { receipt_id := rid,
        entry := L.ledger.getD entry_index defaultEntry,
        merkle_proof := get_proof entryHash combine L entry_index,
        merkle_root := get_merkle_root entryHash combine L,
        chain_index := entry_index,
        total_entries := L.ledger.length,
        timestamp := now,
        entry_hash := entryHash (L.ledger.getD entry_index defaultEntry),
        proof_valid := verify_entry entryHash combine L entry_index,
        chain_valid := verify_chain entryHash combine L }
  else none

/-- A concrete entry encoding standing in for `LedgerEntry.compute_hash`
(SHA-3 of the canonical JSON), used to instantiate the abstract digest in

witnesses. -/
def demoEntryHash (e : LedgerEntry) : String :=
  "E(" ++ e.entry_id ++ ";" ++ e.entry_type ++ ";" ++ toString e.timestamp ++
    ";" ++ e.author_orcid ++ ";" ++ e.content_hash ++ ";" ++ e.previous_hash ++
    ";" ++ e.signature ++ ")"

/-- A concrete pair combiner standing in for hashing the concatenation of two
sibling digests. -/
def demoCombine (a b : String) : String := "(" ++ a ++ "+" ++ b ++ ")"

/-- First concrete entry used by witnesses. -/
def demoLE1 : LedgerEntry :=
  { defaultEntry with
    entry_id := "paper_001"
    entry_type := "paper_submission"
    content_hash := "abc123def456" }

/-- Second concrete entry used by witnesses. -/
def demoLE2 : LedgerEntry :=
  { defaultEntry with
    entry_id := "review_001"
    entry_type := "peer_review"
    content_hash := "def456ghi789" }

/-- Concrete two-entry ledger used by witnesses. -/
def demoLedger2 : ScientificMerkleLedger :=
  (add_entry demoEntryHash
    (add_entry demoEntryHash { ledger := [] } demoLE1).1 demoLE2).1

end MerkleLedger

namespace GateClient

/-- Result dictionary of `OmegaGateClient.validate`
(`tools/exocortex_executor/omega_gate.py`): the `ok` flag the executor
branches on, the `skipped`/`reason` markers of the unconfigured-URL path, and
the error string of the failure paths. -/
structure OmegaResult where
  ok : Bool
  skipped : Bool := false
  reason : Option String := none
  error : Option String := none
  deriving DecidableEq, Repr

/-- Outcome of the HTTP exchange attempted by `OmegaGateClient.validate` when
a URL is configured: the request/read raising (`urllib` raises `HTTPError`
for every non-2xx status, so non-success statuses land here too);
`json.loads` raising on a malformed body; a JSON body that is not a dict; or
a dict whose `"pass"` field has truthiness `passTruthy`
(`bool(result.get("pass"))`). -/
inductive ClientOutcome where
  | transportError (e : String)
  | parseError (e : String)
  | jsonNonDict
  | jsonDict (passTruthy : Bool)
  deriving DecidableEq, Repr

/-- Model of `OmegaGateClient.validate`: with no URL configured the check is skipped
and reported OK ("offline"); with a URL, every outcome except a dict body
with truthy `"pass"` yields `ok = false`. -/
def OmegaGateClient.validate (url : Option String)
    (outcome : ClientOutcome) : OmegaResult :=
  match url with
  | none => { ok := true, skipped := true, reason := some "offline" }
  | some _ =>
    match outcome with
    | ClientOutcome.transportError e => { ok := false, error := some e }
    | ClientOutcome.parseError e => { ok := false, error := some e }
    | ClientOutcome.jsonNonDict => { ok := false, error := some "Invalid response" }
    | ClientOutcome.jsonDict p => { ok := p }

/-- Parsed JSON body of a 200 response inside
`OmegaGateValidator.validate_deploy`
(`tools/exocortex_executor/deploy_with_tests_and_tracing.py`): the optional
`decision` field and the `message` field (defaulted to `""`). -/
structure DeployJson where
  decision : Option String := none
  message : String := ""
  deriving DecidableEq, Repr

/-- Outcome of the `requests.post` exchange in `validate_deploy`: a
`RequestException`; any other exception (including `response.json()` raising
on a malformed 200 body); or an HTTP response with its status code and, for
status 200, its parsed JSON body. -/
inductive DeployOutcome where
  | requestError (e : String)
  | otherError (e : String)
  | http (status : Nat) (body : DeployJson)
  deriving DecidableEq, Repr

/-- Model of `OmegaGateValidator.validate_deploy` (decision flag and message): both
exception paths and every non-200 status return `False`; a 200 response
passes only when its `decision` field equals exactly `"PASS"`. -/
def OmegaGateValidator.validate_deploy (outcome : DeployOutcome) :
    Bool × String :=
  match outcome with
  | DeployOutcome.requestError e => (false, "Erro de conexão com Ω-Gate: " ++ e)
  | DeployOutcome.otherError e => (false, "Erro na validação Ω-Gate: " ++ e)
  | DeployOutcome.http status body =>
    if status == 200 then (body.decision == some "PASS", body.message)
    else (false, "Erro HTTP " ++ toString status)

end GateClient

namespace Executor

/-- Pipeline stages of `SovereignExecutor.run`, in invocation order. -/
inductive Stage where
  | collect | manifest | tests | sbom | provenance | pbse | omega | sigstore
  | publish | ledger
  deriving DecidableEq, Repr

/-- Result of `SigstoreAttestor.attest` (the `ok` flag). -/
structure SigRes where
  ok : Bool
  deriving DecidableEq, Repr

/-- Result of `LedgerWriter.write` (the `ok` flag). -/
structure LedgerRes where
  ok : Bool
  deriving DecidableEq, Repr

/-- Result of one `publisher.publish` call (the `ok` flag). -/
structure PubRes where
  ok : Bool
  deriving DecidableEq, Repr

/-- A configured publisher: registry name plus the outcome its `publish`
call produces (`Except.error e` embeds the call raising). -/
structure Publisher where
  name : String
  result : Except String PubRes

/-- Behaviors of the collaborators during one run of `SovereignExecutor.run`:
each field is the outcome of the corresponding call, `Except.error e`
embedding a raised Python exception. -/
structure Env where
  mode : String
  collectFiles : Except String Unit
  manifestBuild : Except String Unit
  runTests : Except String Bool
  sbomGenerate : Except String Unit
  provGenerate : Except String Unit
  pbseValidate : Except String Bool
  omegaValidate : Except String GateClient.OmegaResult
  sigstoreAttest : Except String SigRes
  loadPublishers : Except String (List Publisher)
  ledgerWrite : Except String LedgerRes

/-- The run record `self.results`, instrumented with the list of collaborator
stages actually invoked and the number of `write_report` calls.  `steps`
keeps the keys inserted into `results["steps"]`, in order (their dictionary
values live in the corresponding `Env` outcomes). -/
structure RunState where
  steps : List String := []
  success : Option Bool := none
  blocked : Bool := false
  reason : Option String := none
  error : Option String := none
  invoked : List Stage := []
  reports : Nat := 0
  deriving DecidableEq, Repr

/-- Mark a collaborator stage as invoked. -/
def invoke (st : RunState) (s : Stage) : RunState :=
  { st with invoked := st.invoked ++ [s] }

/-- Insert a key into `results["steps"]`. -/
def recordStep (st : RunState) (name : String) : RunState :=
  { st with steps := st.steps ++ [name] }

/-- Model of `SovereignExecutor.write_report`: one report file write. -/
def writeReport (st : RunState) : RunState :=
  { st with reports := st.reports + 1 }

/-- Model of `SovereignExecutor.block`: mark failure with the reason and write the
report. -/
def block (st : RunState) (reason : String) : RunState :=
  writeReport
    { st with success := some false, blocked := true, reason := some reason }

/-- How the `try:` body of `run` exits: early `return self.block(...)`,
normal fall-through with success set, or a raised exception. -/
inductive TryExit where
  | returned (s : RunState)
  | fell (s : RunState)
  | raised (e : String) (s : RunState)

/-- Outcome of `SovereignExecutor.publish` over the configured publishers. -/
inductive PublishOutcome where
  | skipped
  | blockedSet
  | allOk
  deriving DecidableEq, Repr

/-- The publisher loop of `SovereignExecutor.publish`: each publisher is
invoked in turn and the first not-ok result blocks the whole set. -/
def publishLoop : List Publisher → Except String PublishOutcome
  | [] => Except.ok PublishOutcome.allOk
  | p :: rest =>
    match p.result with
    | Except.error e => Except.error e
    | Except.ok r =>
      if r.ok then publishLoop rest else Except.ok PublishOutcome.blockedSet

/-- Model of `SovereignExecutor.publish`: outside production mode the whole step is
skipped (reported without a `blocked` marker); in production the loop runs. -/
def publishStage (env : Env) (pubs : List Publisher) :
    Except String PublishOutcome :=
  if env.mode ≠ "production" then Except.ok PublishOutcome.skipped
  else publishLoop pubs

/-- The `try:` body of `SovereignExecutor.run`, stage by stage in source
order.  Each collaborator call is marked `invoke` before its outcome is
consulted; a falsy stage result is an early `return self.block(...)`; a
raised exception aborts the body. -/
def tryBody (env : Env) : TryExit :=
  let st := invoke {} Stage.collect
  match env.collectFiles with
  | Except.error e => TryExit.raised e st
  | Except.ok _ =>
  let st := invoke st Stage.manifest
  match env.manifestBuild with
  | Except.error e => TryExit.raised e st
  | Except.ok _ =>
  let st := recordStep st "manifest"
  let st := invoke st Stage.tests
  match env.runTests with
  | Except.error e => TryExit.raised e st
  | Except.ok testsOk =>
  let st := recordStep st "tests"
  if testsOk then
    let st := invoke st Stage.sbom
    match env.sbomGenerate with
    | Except.error e => TryExit.raised e st
    | Except.ok _ =>
    let st := recordStep st "sbom"
    let st := invoke st Stage.provenance
    match env.provGenerate with
    | Except.error e => TryExit.raised e st
    | Except.ok _ =>
    let st := recordStep st "provenance"
    let st := invoke st Stage.pbse
    match env.pbseValidate with
    | Except.error e => TryExit.raised e st
    | Except.ok pbseOk =>
    let st := recordStep st "pbse_local"
    if pbseOk then
      let st := invoke st Stage.omega
      match env.omegaValidate with
      | Except.error e => TryExit.raised e st
      | Except.ok omegaRes =>
      let st := recordStep st "omega_gate"
      if omegaRes.ok then
        let st := invoke st Stage.sigstore
        match env.sigstoreAttest with
        | Except.error e => TryExit.raised e st
        | Except.ok sig =>
        let st := recordStep st "sigstore"
        if sig.ok then
          match env.loadPublishers with
          | Except.error e => TryExit.raised e st
          | Except.ok pubs =>
          let st := invoke st Stage.publish
          match publishStage env pubs with
          | Except.error e => TryExit.raised e st
          | Except.ok pout =>
          let st := recordStep st "publish"
          if pout = PublishOutcome.blockedSet then
            TryExit.returned (block st "Publish blocked")
          else
            let st := invoke st Stage.ledger
            match env.ledgerWrite with
            | Except.error e => TryExit.raised e st
            | Except.ok lr =>
            let st := recordStep st "ledger"
            if lr.ok then TryExit.fell { st with success := some true }
            else TryExit.returned (block st "Ledger write failed")
        else TryExit.returned (block st "Sigstore attest failed")
      else TryExit.returned (block st "Omega Gate BLOCK")
    else TryExit.returned (block st "PBSE BLOCK")
  else TryExit.returned (block st "Tests failed")

/-- Model of `SovereignExecutor.run`: the `try:` body; an early block return skips the
trailing `write_report` (block already wrote it); fall-through and the
`except Exception` path write the report at the end. -/
def run (env : Env) : RunState :=
  match tryBody env with
  | TryExit.returned s => s
  | TryExit.fell s => writeReport s
  | TryExit.raised e s =>
    writeReport { s with success := some false, error := some e }

/-- Concrete run environment in which every collaborator succeeds except the
test stage, which reports failure. -/
def demoEnvTestsFail : Env :=
  { mode := "dry-run", collectFiles := Except.ok (),
    manifestBuild := Except.ok (), runTests := Except.ok false,
    sbomGenerate := Except.ok (), provGenerate := Except.ok (),
    pbseValidate := Except.ok true,
    omegaValidate := Except.ok { ok := true },
    sigstoreAttest := Except.ok ⟨true⟩, loadPublishers := Except.ok [],
    ledgerWrite := Except.ok ⟨true⟩ }

/-- Concrete run environment in which every stage up to the remote governance
check succeeds and the gate reports not-ok. -/
def demoEnvOmegaFail : Env :=
  { mode := "dry-run", collectFiles := Except.ok (),
    manifestBuild := Except.ok (), runTests := Except.ok true,
    sbomGenerate := Except.ok (), provGenerate := Except.ok (),
    pbseValidate := Except.ok true,
    omegaValidate := Except.ok { ok := false },
    sigstoreAttest := Except.ok ⟨true⟩, loadPublishers := Except.ok [],
    ledgerWrite := Except.ok ⟨true⟩ }

end Executor

namespace Governance

/-- C4: `decide` applies its rules in order — APPROVE exactly when the derived
coherence, the normalized performance, the tail risk and the antifragility all
pass their closed-interval comparisons against the configured thresholds;
otherwise REJECT exactly when the derived coherence is below 0.8 × psi_min;
otherwise REVIEW — and metrics lying exactly on every threshold are APPROVE. -/
theorem decide_rule_order (g : OmegaGate) (expApprox : ℚ → ℚ)
    (m : GovernanceMetrics) :
    (g.decide expApprox m = Decision.APPROVE ↔
      (calculate_psi m ≥ g.psi_min ∧ calculate_theta expApprox m ≤ g.theta_sla ∧
        m.cvar ≤ g.cvar_max ∧ m.alpha ≥ g.alpha_min)) ∧
    (g.decide expApprox m = Decision.REJECT ↔
      (¬(calculate_psi m ≥ g.psi_min ∧ calculate_theta expApprox m ≤ g.theta_sla ∧
          m.cvar ≤ g.cvar_max ∧ m.alpha ≥ g.alpha_min) ∧
        calculate_psi m < g.psi_min * 0.8)) ∧
    (g.decide expApprox m = Decision.REVIEW ↔
      (¬(calculate_psi m ≥ g.psi_min ∧ calculate_theta expApprox m ≤ g.theta_sla ∧
          m.cvar ≤ g.cvar_max ∧ m.alpha ≥ g.alpha_min) ∧
        ¬calculate_psi m < g.psi_min * 0.8)) ∧
    (calculate_psi m = g.psi_min → calculate_theta expApprox m = g.theta_sla →
      m.cvar = g.cvar_max → m.alpha = g.alpha_min →
      g.decide expApprox m = Decision.APPROVE) := by
  unfold OmegaGate.decide
  constructor
  · split_ifs with h1 h2 <;> simp_all
  constructor
  · split_ifs with h1 h2 <;> simp_all
  constructor
  · split_ifs with h1 h2 <;> simp_all
  · intro h1 h2 h3 h4
    split_ifs with h5 h6 <;> simp_all

/-- Witness for `decide_rule_order`: a metrics vector lying exactly on every
default threshold is approved. -/
theorem decide_rule_order_witness :
    OmegaGate.decide {} (fun _ => 0.8)
      { psi := 0.55, theta := 1, cvar := 0.4, alpha := 1.0,
        completeness := 0.55, consistency := 0.55, traceability := 0.55 } =
      Decision.APPROVE :=
  (decide_rule_order {} (fun _ => 0.8)
      { psi := 0.55, theta := 1, cvar := 0.4, alpha := 1.0,
        completeness := 0.55, consistency := 0.55,
        traceability := 0.55 }).2.2.2
    (by norm_num [calculate_psi, clip]) (by norm_num [calculate_theta, clip])
    (by norm_num) (by norm_num)

/-- C5: with the default thresholds, any metrics whose derived coherence is
0.75, normalized performance 0.3, tail risk 0.3 and antifragility 1.2 are
approved, and the same profile with derived coherence 0.3 (< 0.8 × 0.55) is
rejected. -/
theorem default_gate_scenarios (expApprox : ℚ → ℚ)
    (m m' : GovernanceMetrics)
    (hpsi : calculate_psi m = 0.75)
    (hth : calculate_theta expApprox m = 0.3)
    (hcv : m.cvar = 0.3) (hal : m.alpha = 1.2)
    (hpsi' : calculate_psi m' = 0.3)
    (hth' : calculate_theta expApprox m' = 0.3)
    (hcv' : m'.cvar = 0.3) (hal' : m'.alpha = 1.2) :
    OmegaGate.decide {} expApprox m = Decision.APPROVE ∧
    OmegaGate.decide {} expApprox m' = Decision.REJECT := by
  unfold OmegaGate.decide
  rw [hpsi, hth, hcv, hal, hpsi', hth', hcv', hal']
  norm_num

/-- Witness for `default_gate_scenarios` at concrete metric vectors. -/
theorem default_gate_scenarios_witness :
    OmegaGate.decide {} (fun _ => 0.3)
      { psi := 0.75, theta := 1, cvar := 0.3, alpha := 1.2,
        completeness := 0.75, consistency := 0.75, traceability := 0.75 } =
      Decision.APPROVE ∧
    OmegaGate.decide {} (fun _ => 0.3)
      { psi := 0.3, theta := 1, cvar := 0.3, alpha := 1.2,
        completeness := 0.3, consistency := 0.3, traceability := 0.3 } =
      Decision.REJECT :=
  default_gate_scenarios (fun _ => 0.3)
    { psi := 0.75, theta := 1, cvar := 0.3, alpha := 1.2,
      completeness := 0.75, consistency := 0.75, traceability := 0.75 }
    { psi := 0.3, theta := 1, cvar := 0.3, alpha := 1.2,
      completeness := 0.3, consistency := 0.3, traceability := 0.3 }
    (by norm_num [calculate_psi, clip]) (by norm_num [calculate_theta, clip])
    (by norm_num) (by norm_num)
    (by norm_num [calculate_psi, clip]) (by norm_num [calculate_theta, clip])
    (by norm_num) (by norm_num)

end Governance

namespace OHash

/-- Records produced by the chain-building loop, seeded with the previous
record's OHASH, always verify as correctly linked. -/
theorem verifyLinked_create_aux {α : Type} (H : OHashPayload → String)
    (alg orcid : String) (total : Nat) (artHash typeName : α → String)
    (times genAts : Nat → Int) :
    ∀ (arts : List α) (i : Nat) (prevRec : ChainRecord),
      verifyLinked H prevRec
        (create_author_chain_aux H alg orcid total artHash typeName times
          genAts arts i prevRec.ohash) = true := by
  intro arts
  induction arts with
  | nil => intro i prevRec; rfl
  | cons a rest ih =>
    intro i prevRec
    simp only [create_author_chain_aux, generate_ohash, verifyLinked,
      checkRecord, Bool.and_eq_true, beq_self_eq_true, true_and]
    exact ih (i + 1) _

/-- Lemma: `verifyLinked` succeeds exactly when the first-failure scan (seeded with
the same previous record) finds no failure. -/
theorem verifyLinked_iff_firstFailAux (H : OHashPayload → String) :
    ∀ (l : List ChainRecord) (prev : ChainRecord) (i : Nat),
      verifyLinked H prev l = true ↔
        firstFailAux H (some prev) i l = none := by
  intro l
  induction l with
  | nil => intro prev i; simp [verifyLinked, firstFailAux]
  | cons c rest ih =>
    intro prev i
    by_cases hc : checkRecord H c = true ∧ c.payload.prev_ohash = prev.ohash
    · simp [verifyLinked, firstFailAux, Bool.and_eq_true, beq_iff_eq, hc,
        ih c (i + 1)]
    · simp [verifyLinked, firstFailAux, Bool.and_eq_true, beq_iff_eq, hc]

/-- Replacing an element at or beyond position `k` does not change the first
`j ≤ k` elements of a list. -/
theorem take_set_of_le {α : Type} (a : α) :
    ∀ (l : List α) (k j : Nat), j ≤ k → (l.set k a).take j = l.take j := by
  intro l
  induction l with
  | nil => intro k j _; simp
  | cons d rest ih =>
    intro k j hjk
    match k, j with
    | _, 0 => simp
    | k + 1, j + 1 =>
      simp only [List.set_cons_succ, List.take_succ_cons, List.cons.injEq,
        true_and]
      exact ih k j (Nat.succ_le_succ_iff.mp hjk)

/-- Corrupting the stored OHASH of the record at offset `k` of a correctly
linked chain suffix makes the first-failure scan stop exactly there. -/
theorem firstFailAux_set_corrupt (H : OHashPayload → String) (x : String) :
    ∀ (l : List ChainRecord) (prev : ChainRecord) (i k : Nat)
      (c : ChainRecord),
      verifyLinked H prev l = true → l[k]? = some c → x ≠ c.ohash →
      firstFailAux H (some prev) i (l.set k { c with ohash := x }) =
        some (i + k) := by
  intro l
  induction l with
  | nil => intro prev i k c _ hk; simp at hk
  | cons d rest ih =>
    intro prev i k c hlink hk hx
    simp only [verifyLinked, checkRecord, Bool.and_eq_true, beq_iff_eq]
      at hlink
    obtain ⟨⟨hhash, hprev⟩, htail⟩ := hlink
    match k with
    | 0 =>
      obtain rfl : d = c := by simpa using hk
      have hne : (H d.payload == x) = false := by
        simp only [beq_eq_false_iff_ne, ne_eq, hhash]
        exact fun h => hx h.symm
      simp [firstFailAux, checkRecord, hne]
    | j + 1 =>
      simp only [List.getElem?_cons_succ] at hk
      have hrec := ih d (i + 1) j c htail hk hx
      have harith : i + 1 + j = i + (j + 1) := by omega
      rw [harith] at hrec
      simpa [firstFailAux, checkRecord, hhash, hprev] using hrec

/-- Corrupting the stored OHASH of record `k` of any chain accepted by
`verify_chain` makes verification fail, with the earliest failing per-record
check exactly at index `k` and the records before `k` untouched. -/
theorem verify_chain_set_corrupt (H : OHashPayload → String)
    (l : List ChainRecord) (k : Nat) (c : ChainRecord) (x : String)
    (hok : verify_chain H l = true) (hk : l[k]? = some c)
    (hx : x ≠ c.ohash) :
    verify_chain H (l.set k { c with ohash := x }) = false ∧
    firstFailIdx H (l.set k { c with ohash := x }) = some k ∧
    (l.set k { c with ohash := x }).take k = l.take k := by
  cases l with
  | nil => simp at hk
  | cons d rest =>
    simp only [verify_chain, checkRecord, Bool.and_eq_true, beq_iff_eq]
      at hok
    obtain ⟨hhash, htail⟩ := hok
    match k with
    | 0 =>
      obtain rfl : d = c := by simpa using hk
      have hne : (H d.payload == x) = false := by
        simp only [beq_eq_false_iff_ne, ne_eq, hhash]
        exact fun h => hx h.symm
      refine ⟨?_, ?_, by simp⟩
      · simp [verify_chain, checkRecord, hne]
      · simp [firstFailIdx, firstFailAux, checkRecord, hne]
    | j + 1 =>
      simp only [List.getElem?_cons_succ] at hk
      have hff := firstFailAux_set_corrupt H x rest d 1 j c htail hk hx
      have hnl : verifyLinked H d (rest.set j { c with ohash := x }) =
          false := by
        by_contra hcon
        rw [Bool.not_eq_false,
          verifyLinked_iff_firstFailAux H _ _ 1, hff] at hcon
        exact Option.noConfusion hcon
      refine ⟨?_, ?_, ?_⟩
      · simp [verify_chain, hnl]
      · have harith : (1 : Nat) + j = j + 1 := by omega
        rw [harith] at hff
        simpa [firstFailIdx, firstFailAux, checkRecord, hhash] using hff
      · simp only [List.set_cons_succ, List.take_succ_cons, List.cons.injEq,
          true_and]
        exact take_set_of_le _ rest j j le_rfl

/-- C6: an author chain built by `create_author_chain` over `N ≥ 1` artifacts
passes `verify_chain`; and if the stored OHASH of its record `k` is
overwritten with any other value, `verify_chain` fails, the earliest failing
per-record check is exactly at index `k`, and the records before index `k`
are untouched. -/
theorem author_chain_verify_and_corrupt {α : Type} (H : OHashPayload → String)
    (alg orcid : String) (artHash typeName : α → String)
    (times genAts : Nat → Int) (artifacts : List α) :
    (artifacts ≠ [] →
      verify_chain H (create_author_chain H alg orcid artifacts artHash
        typeName times genAts) = true) ∧
    (∀ (k : Nat) (c : ChainRecord) (x : String),
      (create_author_chain H alg orcid artifacts artHash typeName times
          genAts)[k]? = some c →
      x ≠ c.ohash →
      verify_chain H ((create_author_chain H alg orcid artifacts artHash
          typeName times genAts).set k { c with ohash := x }) = false ∧
      firstFailIdx H ((create_author_chain H alg orcid artifacts artHash
          typeName times genAts).set k { c with ohash := x }) = some k ∧
      ((create_author_chain H alg orcid artifacts artHash typeName times
          genAts).set k { c with ohash := x }).take k =
        (create_author_chain H alg orcid artifacts artHash typeName times
          genAts).take k) := by
  have hbuilt : artifacts ≠ [] →
      verify_chain H (create_author_chain H alg orcid artifacts artHash
        typeName times genAts) = true := by
    cases artifacts with
    | nil => exact fun h => absurd rfl h
    | cons a as =>
      intro _
      show (checkRecord H _ && verifyLinked H _ _) = true
      rw [Bool.and_eq_true]
      exact ⟨beq_self_eq_true _, verifyLinked_create_aux H alg orcid
        (a :: as).length artHash typeName times genAts as 1 _⟩
  refine ⟨hbuilt, fun k c x hk hx => ?_⟩
  cases artifacts with
  | nil => simp [create_author_chain, create_author_chain_aux] at hk
  | cons a as =>
    exact verify_chain_set_corrupt H _ k c x (hbuilt (by simp)) hk hx

/-- Witness for `author_chain_verify_and_corrupt`: a two-record chain
verifies, and rewriting the second record's OHASH to `"corrupt"` makes
verification fail first at index 1 while leaving index 0 untouched. -/
theorem author_chain_verify_and_corrupt_witness :
    verify_chain demoPayloadHash demoChain = true ∧
    (verify_chain demoPayloadHash
        (demoChain.set 1 { demoRecord1 with ohash := "corrupt" }) = false ∧
      firstFailIdx demoPayloadHash
        (demoChain.set 1 { demoRecord1 with ohash := "corrupt" }) = some 1 ∧
      (demoChain.set 1 { demoRecord1 with ohash := "corrupt" }).take 1 =
        demoChain.take 1) :=
  ⟨(author_chain_verify_and_corrupt demoPayloadHash "sha3_256"
      "0009-0008-2973-4047" (fun a => a) (fun _ => "str")
      (fun i => (i : Int)) (fun i => (i : Int)) ["paperA", "paperB"]).1
      (by decide),
   (author_chain_verify_and_corrupt demoPayloadHash "sha3_256"
      "0009-0008-2973-4047" (fun a => a) (fun _ => "str")
      (fun i => (i : Int)) (fun i => (i : Int)) ["paperA", "paperB"]).2
      1 demoRecord1 "corrupt" (by decide) (by decide)⟩

end OHash

namespace MerkleLedger

/-- Lemma: `nextLevel` halves the level size, rounding up. -/
theorem nextLevel_length (combine : String → String → String) :
    ∀ l : List String, (nextLevel combine l).length = (l.length + 1) / 2
  | [] => by simp [nextLevel]
  | [_] => by simp [nextLevel]
  | _ :: _ :: rest => by
    simp only [nextLevel, List.length_cons, nextLevel_length combine rest]
    omega

/-- C2: evaluation of `verify_chain` on ledgers built purely by appends.  The
empty ledger verifies vacuously and a two-entry ledger verifies (its second
entry's `previous_hash` having been set to the first entry's digest by
`add_entry`), but a ONE-entry ledger fails to verify: `merkletools` returns
the empty proof list for the single leaf of a one-leaf tree, and
`verify_entry`'s `if not proof: return False` conflates that legitimate empty
proof with a missing proof, so `verify_entry(0)` — and hence `verify_chain()`
— is `False`, contradicting the claim at length 1. -/
theorem verify_chain_append_lengths (entryHash : LedgerEntry → String)
    (combine : String → String → String) (ea eb : LedgerEntry) :
    verify_chain entryHash combine { ledger := [] } = true ∧
    verify_chain entryHash combine
      (add_entry entryHash { ledger := [] } ea).1 = false ∧
    verify_chain entryHash combine
      (add_entry entryHash (add_entry entryHash { ledger := [] } ea).1
        eb).1 = true ∧
    ((add_entry entryHash (add_entry entryHash { ledger := [] } ea).1
        eb).1.ledger.getD 1 defaultEntry).previous_hash = entryHash ea := by
  have h1 : (add_entry entryHash { ledger := [] } ea).1 =
      { ledger := [ea] } := rfl
  have h2 : (add_entry entryHash { ledger := [ea] } eb).1 =
      { ledger := [ea, { eb with previous_hash := entryHash ea }] } := rfl
  rw [h1, h2]
  refine ⟨rfl, ?_, ?_, rfl⟩
  · simp [verify_chain, verify_entry, get_proof, leaves, buildProof,
      proofLoop, List.range_succ]
  · simp [verify_chain, verify_entry, get_proof, leaves, buildProof,
      proofLoop, rootAux, rootLoop, get_merkle_root, validate_proof,
      nextLevel, List.range_succ]

/-- C8 (amended): `add_entry` overwrites the stored entry's `previous_hash`
with the last entry's digest whenever the ledger is non-empty; when the
ledger is empty it stores the entry exactly as supplied, keeping whatever
`previous_hash` the caller set (the dataclass default being the empty
string). -/
theorem add_entry_sets_previous_hash (entryHash : LedgerEntry → String)
    (L : ScientificMerkleLedger) (e : LedgerEntry) :
    (∀ last, L.ledger.getLast? = some last →
      ((add_entry entryHash L e).1.ledger.getLastD
        defaultEntry).previous_hash = entryHash last) ∧
    (L.ledger.getLast? = none →
      ((add_entry entryHash L e).1.ledger.getLastD
        defaultEntry).previous_hash = e.previous_hash) := by
  constructor
  · intro last hl
    simp [add_entry, hl, List.getLastD_concat]
  · intro hl
    simp [add_entry, hl, List.getLastD_concat]

/-- Witness for `add_entry_sets_previous_hash`: appending onto a one-entry
ledger links to that entry's digest; appending onto the empty ledger keeps
the supplied `previous_hash`. -/
theorem add_entry_sets_previous_hash_witness :
    ((add_entry demoEntryHash { ledger := [demoLE1] } demoLE2).1.ledger.getLastD
      defaultEntry).previous_hash = demoEntryHash demoLE1 ∧
    ((add_entry demoEntryHash { ledger := [] } demoLE2).1.ledger.getLastD
      defaultEntry).previous_hash = demoLE2.previous_hash :=
  ⟨(add_entry_sets_previous_hash demoEntryHash { ledger := [demoLE1] }
      demoLE2).1 demoLE1 rfl,
   (add_entry_sets_previous_hash demoEntryHash { ledger := [] } demoLE2).2
      rfl⟩

/-- Counterexample to C8 as stated: appending to the EMPTY ledger does not
set `previous_hash` to the empty string — the `if self.ledger:` guard skips
the assignment entirely, so a caller-supplied value (here `"stale"`)
survives into storage. -/
theorem add_entry_empty_keeps_caller_value :
    ((add_entry demoEntryHash { ledger := [] }
        { demoLE1 with previous_hash := "stale" }).1.ledger.getLastD
      defaultEntry).previous_hash = "stale" ∧ "stale" ≠ "" := by
  exact ⟨rfl, by decide⟩

/-- C9 (amended): for any index at or beyond the ledger length, `get_proof`
returns Python `None` (embedded as `none`) and `create_evidence_receipt`
returns the empty dictionary `{}` (embedded as `none`); neither raises an
`IndexOutOfRange` error. -/
theorem out_of_range_returns_sentinel (entryHash : LedgerEntry → String)
    (combine : String → String → String) (rid : String) (now : Int)
    (L : ScientificMerkleLedger) (i : Nat) (h : L.ledger.length ≤ i) :
    get_proof entryHash combine L i = none ∧
    create_evidence_receipt entryHash combine rid now L i = none := by
  have hn : ¬i < L.ledger.length := by omega
  exact ⟨by simp [get_proof, hn], by simp [create_evidence_receipt, hn]⟩

/-- Witness for `out_of_range_returns_sentinel` at index 2 of the two-entry
demo ledger. -/
theorem out_of_range_returns_sentinel_witness :
    get_proof demoEntryHash demoCombine demoLedger2 2 = none ∧
    create_evidence_receipt demoEntryHash demoCombine "rid" 7 demoLedger2 2 =
      none :=
  out_of_range_returns_sentinel demoEntryHash demoCombine "rid" 7 demoLedger2
    2 (by decide)

/-- Counterexample to C9 as stated: at index 5 of a two-entry ledger both
operations return their non-error placeholder value (Python `None`
respectively `{}`, both embedded as `none`) instead of failing with an
`IndexOutOfRange` error — the embedded return types record that no error
path exists in the code. -/
theorem out_of_range_placeholder_counterexample :
    get_proof demoEntryHash demoCombine demoLedger2 5 = none ∧
    create_evidence_receipt demoEntryHash demoCombine "rid" 0 demoLedger2 5 =
      none := by
  decide

end MerkleLedger

/-- C10: `OHashEngine.verify_chain` on an empty chain returns `False`
(`if not chain: return False`), although an empty chain has no corrupted
record and no broken link — while `ScientificMerkleLedger.verify_chain` on an
empty ledger returns `True`. -/
theorem empty_chain_verification_asymmetry :
    (∀ H : OHash.OHashPayload → String, OHash.verify_chain H [] = false) ∧
    (∀ (entryHash : MerkleLedger.LedgerEntry → String)
      (combine : String → String → String),
      MerkleLedger.verify_chain entryHash combine { ledger := [] } = true) :=
  ⟨fun _ => rfl, fun _ _ => rfl⟩

namespace Executor

/-- C3: whenever the test stage reports failure (after file collection and
manifest build succeed), the run terminates blocked with reason
"Tests failed" — which names the test stage — and none of the later
collaborators (SBOM, provenance, local policy, governance, attestation,
publish, ledger append) is ever invoked. -/
theorem tests_fail_blocks_pipeline (env : Env)
    (hcf : env.collectFiles = Except.ok ())
    (hmb : env.manifestBuild = Except.ok ())
    (hrt : env.runTests = Except.ok false) :
    (run env).blocked = true ∧ (run env).success = some false ∧
    (run env).reason = some "Tests failed" ∧
    (run env).invoked = [Stage.collect, Stage.manifest, Stage.tests] ∧
    Stage.sbom ∉ (run env).invoked ∧ Stage.provenance ∉ (run env).invoked ∧
    Stage.pbse ∉ (run env).invoked ∧ Stage.omega ∉ (run env).invoked ∧
    Stage.sigstore ∉ (run env).invoked ∧ Stage.publish ∉ (run env).invoked ∧
    Stage.ledger ∉ (run env).invoked := by
  unfold run tryBody
  simp [hcf, hmb, hrt, invoke, recordStep, block, writeReport]

/-- Witness for `tests_fail_blocks_pipeline` in the concrete environment
`demoEnvTestsFail`. -/
theorem tests_fail_blocks_pipeline_witness :
    (run demoEnvTestsFail).blocked = true ∧
    (run demoEnvTestsFail).success = some false ∧
    (run demoEnvTestsFail).reason = some "Tests failed" ∧
    (run demoEnvTestsFail).invoked =
      [Stage.collect, Stage.manifest, Stage.tests] ∧
    Stage.sbom ∉ (run demoEnvTestsFail).invoked ∧
    Stage.provenance ∉ (run demoEnvTestsFail).invoked ∧
    Stage.pbse ∉ (run demoEnvTestsFail).invoked ∧
    Stage.omega ∉ (run demoEnvTestsFail).invoked ∧
    Stage.sigstore ∉ (run demoEnvTestsFail).invoked ∧
    Stage.publish ∉ (run demoEnvTestsFail).invoked ∧
    Stage.ledger ∉ (run demoEnvTestsFail).invoked :=
  tests_fail_blocks_pipeline demoEnvTestsFail rfl rfl rfl

/-- C7: for EVERY combination of collaborator outcomes — including any stage
call raising an unexpected exception — `run` produces a terminal record
(success, or failure marked blocked or carrying the caught error) and writes
the per-run report exactly once. -/
theorem run_writes_one_report_and_terminates (env : Env) :
    (run env).reports = 1 ∧
    ((run env).success = some true ∨
      ((run env).success = some false ∧
        ((run env).blocked = true ∨ (run env).error ≠ none))) := by
  obtain ⟨mode, cf, mb, rt, sg, pg, pb, ov, sa, lp, lw⟩ := env
  unfold run tryBody
  dsimp only
  cases cf with
  | error e => simp [invoke, writeReport]
  | ok u =>
  cases mb with
  | error e => simp [invoke, writeReport]
  | ok u2 =>
  cases rt with
  | error e => simp [invoke, recordStep, writeReport]
  | ok testsOk =>
  cases testsOk with
  | false => simp [invoke, recordStep, block, writeReport]
  | true =>
  cases sg with
  | error e => simp [invoke, recordStep, writeReport]
  | ok u3 =>
  cases pg with
  | error e => simp [invoke, recordStep, writeReport]
  | ok u4 =>
  cases pb with
  | error e => simp [invoke, recordStep, writeReport]
  | ok pbseOk =>
  cases pbseOk with
  | false => simp [invoke, recordStep, block, writeReport]
  | true =>
  cases ov with
  | error e => simp [invoke, recordStep, writeReport]
  | ok omegaRes =>
  obtain ⟨ook, oskip, oreason, oerr⟩ := omegaRes
  cases ook with
  | false => simp [invoke, recordStep, block, writeReport]
  | true =>
  cases sa with
  | error e => simp [invoke, recordStep, writeReport]
  | ok sig =>
  obtain ⟨sok⟩ := sig
  cases sok with
  | false => simp [invoke, recordStep, block, writeReport]
  | true =>
  cases lp with
  | error e => simp [invoke, recordStep, writeReport]
  | ok pubs =>
  cases hps : publishStage ⟨mode, Except.ok u, Except.ok u2,
      Except.ok true, Except.ok u3, Except.ok u4, Except.ok true,
      Except.ok ⟨true, oskip, oreason, oerr⟩, Except.ok ⟨true⟩,
      Except.ok pubs, lw⟩ pubs with
  | error e => simp [hps, invoke, recordStep, writeReport]
  | ok pout =>
  cases pout with
  | blockedSet => simp [hps, invoke, recordStep, block, writeReport]
  | skipped =>
    cases lw with
    | error e => simp [hps, invoke, recordStep, writeReport]
    | ok lr =>
      obtain ⟨lok⟩ := lr
      cases lok with
      | false => simp [hps, invoke, recordStep, block, writeReport]
      | true => simp [hps, invoke, recordStep, writeReport]
  | allOk =>
    cases lw with
    | error e => simp [hps, invoke, recordStep, writeReport]
    | ok lr =>
      obtain ⟨lok⟩ := lr
      cases lok with
      | false => simp [hps, invoke, recordStep, block, writeReport]
      | true => simp [hps, invoke, recordStep, writeReport]

end Executor

/-- C1 (amended): with a CONFIGURED endpoint both remote governance clients
are fail-closed — `OmegaGateClient.validate` reports `ok = true` exactly for
a JSON-dict body with truthy `"pass"`, and `validate_deploy` succeeds exactly
on HTTP 200 with decision exactly `"PASS"`; every transport error, non-success
status and malformed body yields a not-OK result, and a not-OK gate result
blocks the executor pipeline with reason "Omega Gate BLOCK".  An
UNCONFIGURED endpoint, however, is skipped with a default `ok = true` (see
`unconfigured_gate_defaults_to_approve`). -/
theorem remote_governance_fail_closed :
    (∀ (u : String) (o : GateClient.ClientOutcome),
      (GateClient.OmegaGateClient.validate (some u) o).ok = true ↔
        o = GateClient.ClientOutcome.jsonDict true) ∧
    (∀ o : GateClient.DeployOutcome,
      (GateClient.OmegaGateValidator.validate_deploy o).1 = true ↔
        ∃ body, o = GateClient.DeployOutcome.http 200 body ∧
          body.decision = some "PASS") ∧
    (∀ (env : Executor.Env) (r : GateClient.OmegaResult),
      env.collectFiles = Except.ok () → env.manifestBuild = Except.ok () →
      env.runTests = Except.ok true → env.sbomGenerate = Except.ok () →
      env.provGenerate = Except.ok () → env.pbseValidate = Except.ok true →
      env.omegaValidate = Except.ok r → r.ok = false →
      (Executor.run env).blocked = true ∧
      (Executor.run env).reason = some "Omega Gate BLOCK") := by
  refine ⟨?_, ?_, ?_⟩
  · intro u o
    cases o <;> simp [GateClient.OmegaGateClient.validate]
  · intro o
    cases o with
    | requestError e => simp [GateClient.OmegaGateValidator.validate_deploy]
    | otherError e => simp [GateClient.OmegaGateValidator.validate_deploy]
    | http status body =>
      by_cases hs : status = 200
      · subst hs
        simp [GateClient.OmegaGateValidator.validate_deploy]
      · simp [GateClient.OmegaGateValidator.validate_deploy, hs]
  · intro env r hcf hmb hrt hsg hpg hpb hov hr
    unfold Executor.run Executor.tryBody
    simp [hcf, hmb, hrt, hsg, hpg, hpb, hov, hr, Executor.invoke,
      Executor.recordStep, Executor.block, Executor.writeReport]

/-- Witness for `remote_governance_fail_closed`: a truthy `"pass"` approves a
configured client, and a not-ok gate result blocks the concrete run
`demoEnvOmegaFail`. -/
theorem remote_governance_fail_closed_witness :
    (GateClient.OmegaGateClient.validate (some "http://core")
      (GateClient.ClientOutcome.jsonDict true)).ok = true ∧
    ((Executor.run Executor.demoEnvOmegaFail).blocked = true ∧
      (Executor.run Executor.demoEnvOmegaFail).reason =
        some "Omega Gate BLOCK") :=
  ⟨(remote_governance_fail_closed.1 "http://core"
      (GateClient.ClientOutcome.jsonDict true)).mpr rfl,
    remote_governance_fail_closed.2.2 Executor.demoEnvOmegaFail { ok := false }
      rfl rfl rfl rfl rfl rfl rfl rfl⟩

/-- Counterexample to C1 as stated: with NO endpoint configured
(`MATVERSE_OMEGA_GATE_URL` unset), `OmegaGateClient.validate` never contacts
anything and reports `ok = true` with `skipped`/"offline" markers — a default
approval that lets the pipeline proceed, not a governance failure. -/
theorem unconfigured_gate_defaults_to_approve :
    (GateClient.OmegaGateClient.validate none
      (GateClient.ClientOutcome.transportError "unreachable")).ok = true ∧
    (GateClient.OmegaGateClient.validate none
      (GateClient.ClientOutcome.transportError "unreachable")).skipped =
      true :=
  ⟨rfl, rfl⟩
